import Mathlib

/-!
Shallow embedding of the caching JSON-RPC reverse proxy (`src/main.rs`) and
verification of the frozen claims about its batch reconciliation engine.

External collaborators (the redis store, the upstream HTTP client, and the
`serde_json` parser used on cached strings) are modelled as oracles carried in
an environment record; the engine itself (`read_cache`, `rpc_call` and the
provisioning loop of `main`) is translated line by line from the source.
-/

namespace CachedEthRpc

/-- JSON values as manipulated by the program via `serde_json::Value`.
Numbers are modelled as integers, which covers every numeric behaviour the
program depends on (`as_u64` and id round-tripping). -/
inductive JVal where
  | null
  | bool (b : Bool)
  | num (n : Int)
  | str (s : String)
  | arr (elems : List JVal)
  | obj (fields : List (String × JVal))

/-- Indexing `value[key]` on a `serde_json::Value`: field lookup on objects, `Null` on
everything else (including a missing field). -/
def JVal.index (v : JVal) (key : String) : JVal :=
  match v with
  | .obj fields =>
    match fields.find? (fun f => f.1 == key) with
    | some f => f.2
    | none => .null
  | _ => .null

/-- Rust `Value::as_u64`: the value if it is a number representable as `u64`. -/
def JVal.as_u64 : JVal → Option Nat
  | .num n => if 0 ≤ n ∧ n < 2 ^ 64 then some n.toNat else none
  | _ => none

/-- Rust `Value::as_str`. -/
def JVal.as_str : JVal → Option String
  | .str s => some s
  | _ => none

/-- Rust `Value::as_array`. -/
def JVal.as_array : JVal → Option (List JVal)
  | .arr elems => some elems
  | _ => none

/-- Rust `Value::is_null`. -/
def JVal.is_null : JVal → Bool
  | .null => true
  | _ => false

/-- Association-list rendering of the `HashMap`s used per call. Only `get`
and `insert` are performed on them by the program; `insert` overwrites. -/
def mapGet {κ α : Type _} [DecidableEq κ] (m : List (κ × α)) (k : κ) : Option α :=
  (m.find? (fun e => decide (e.1 = k))).map (·.2)

/-- Rust `HashMap::insert`: overwrite the binding if the key is present, otherwise
add it. -/
def mapInsert {κ α : Type _} [DecidableEq κ] (m : List (κ × α)) (k : κ) (v : α) :
    List (κ × α) :=
  match m with
  | [] => [(k, v)]
  | e :: rest => if e.1 = k then (k, v) :: rest else e :: mapInsert rest k v

/-- Rust `str::to_uppercase` as used on chain names. This is extensionally
`String.toUpper` (map `Char.toUpper` over the characters), stated over the
underlying character list so that it reduces structurally. -/
def strToUpper (s : String) : String := ⟨s.data.map Char.toUpper⟩

/-- The `RpcCacheHandler` trait: the three-operation capability the engine
consumes. `extract_cache_key` and `extract_cache_value` return
`anyhow::Result` values, modelled with `Except String`. -/
structure RpcCacheHandler where
  method_name : String
  extract_cache_key : JVal → Except String (Option String)
  extract_cache_value : JVal → Except String (Bool × String)

/-- A `CacheEntry` owns one handler. -/
structure CacheEntry where
  handler : RpcCacheHandler

/-- Per-chain state: upstream url and the method → handler table. -/
structure ChainState where
  rpc_url : String
  cache_entries : List (String × CacheEntry)

/-- Process-wide state: chain-name → `ChainState` table. -/
structure AppState where
  chains : List (String × ChainState)

/-- Outcome of one cache lookup (`CacheStatus` in the source). -/
inductive CacheStatus where
  | NotAvailable
  | Cached (key : String) (value : JVal)
  | Missed (key : String)

/-- The redis client as seen through the calls the program makes:
`get_connection()` (whose `.unwrap()` panics when `connOk` is false) and the
GET command (whose `.unwrap()` panics when `get` returns an error). SET
results are discarded by the program (`let _ = ...`), so only the connection
acquisition matters on the write path. -/
structure RedisEnv where
  connOk : Bool
  get : String → Except String (Option String)

/-- The per-call environment of external effects: the redis client, the
`serde_json::from_str` parser applied to cached strings, and the upstream
node (`request_rpc`), mapping the batch body sent to the response received
or a transport/parse failure. -/
structure Env where
  redis : RedisEnv
  parse : String → Option JVal
  upstream : JVal → Except String JVal

/-- Error responses the handler can produce, plus `panic` for the `unwrap`,
`expect` and `panic` sites reached by the code. -/
inductive ErrorResponse where
  | notFound (msg : String)
  | badRequest (msg : String)
  | internalServerError (msg : String)
  | panic (msg : String)

/-- Result of `read_cache` together with the panics its redis unwraps can
raise. -/
inductive ReadCacheResult where
  | panic (msg : String)
  | err (msg : String)
  | ok (status : CacheStatus)

/-- Model of `read_cache` from the source: extract a cache key (failure is an
`anyhow` error), no key means not cacheable, otherwise query redis through
`REDIS.get_connection().unwrap().get(&cache_key).unwrap()` (either unwrap
panics on failure) and deserialize a present value (failure is an `anyhow`
error). -/
def read_cache (env : Env) (handler : RpcCacheHandler) (params : JVal) :
    ReadCacheResult :=
  match handler.extract_cache_key params with
  | .error e => .err ("fail to extract cache key: " ++ e)
  | .ok none => .ok .NotAvailable
  | .ok (some cache_key) =>
    if env.redis.connOk = false then .panic "redis connection failed"
    else
      match env.redis.get cache_key with
      | .error e => .panic ("redis get failed: " ++ e)
      | .ok none => .ok (.Missed cache_key)
      | .ok (some value) =>
        match env.parse value with
        | none => .err "fail to deserialize cache value"
        | some cache_value => .ok (.Cached cache_key cache_value)

/-- The per-call accumulators of `rpc_call`: `request_result`,
`uncached_requests` (id → (method, params, optional cache key)) and
`ordered_id`. -/
structure LoopState where
  request_result : List (Nat × JVal)
  uncached_requests : List (Nat × String × JVal × Option String)
  ordered_id : List Nat

/-- One iteration of the first loop of `rpc_call`: validate id and method,
record the id, then classify the request as cached / uncached via the
handler table and `read_cache`. `read_cache` errors are logged and degraded
to an uncached forward with no cache key. -/
def processRequest (env : Env) (chain_state : ChainState) (st : LoopState)
    (request : JVal) : Except ErrorResponse LoopState :=
  match (request.index "id").as_u64 with
  | none => .error (.badRequest "id not found")
  | some id =>
  match (request.index "method").as_str with
  | none => .error (.badRequest "method not found")
  | some method =>
  let params := request.index "params"
  let st1 : LoopState := { st with ordered_id := st.ordered_id ++ [id] }
  match mapGet chain_state.cache_entries method with
  | none =>
    .ok { st1 with
          uncached_requests := mapInsert st1.uncached_requests id (method, params, none) }
  | some cache_entry =>
    match read_cache env cache_entry.handler params with
    | .panic m => .error (.panic m)
    | .err _ =>
      .ok { st1 with
            uncached_requests := mapInsert st1.uncached_requests id (method, params, none) }
    | .ok .NotAvailable =>
      .ok { st1 with
            uncached_requests := mapInsert st1.uncached_requests id (method, params, none) }
    | .ok (.Cached _ value) =>
      .ok { st1 with request_result := mapInsert st1.request_result id value }
    | .ok (.Missed cache_key) =>
      .ok { st1 with
            uncached_requests := mapInsert st1.uncached_requests id (method, params, some cache_key) }

/-- The JSON-RPC batch body built from `uncached_requests`. -/
def buildRequestBody (uncached : List (Nat × String × JVal × Option String)) : JVal :=
  .arr (uncached.map (fun e =>
    .obj [("jsonrpc", .str "2.0"), ("id", .num (e.1 : Int)),
          ("method", .str e.2.1), ("params", e.2.2.1)]))

/-- One iteration of the upstream-response loop of `rpc_call`: the element's
id must be a `u64` (400 otherwise) and is looked up in `uncached_requests`
with `.unwrap()` (panic when absent); a non-null `error` field fails the call
with 500; otherwise the `result` is recorded and, when the pending request
carried a cache key, the handler's `extract_cache_value` runs under
`.expect` (panic on failure) and a cacheable value is written to redis
best-effort (only the connection unwrap can panic). -/
def processResponse (env : Env) (chain_state : ChainState)
    (uncached_requests : List (Nat × String × JVal × Option String))
    (request_result : List (Nat × JVal)) (response : JVal) :
    Except ErrorResponse (List (Nat × JVal)) :=
  match (response.index "id").as_u64 with
  | none => .error (.badRequest "id not found")
  | some id =>
  match mapGet uncached_requests id with
  | none => .error (.panic "unknown response id")
  | some (method, _params, cache_key) =>
  if (response.index "error").is_null = false then
    .error (.internalServerError "remote rpc error")
  else
    let result := response.index "result"
    let request_result := mapInsert request_result id result
    match cache_key with
    | none => .ok request_result
    | some _cache_key =>
      match mapGet chain_state.cache_entries method with
      | none => .error (.panic "cache entry not found")
      | some cache_entry =>
        match cache_entry.handler.extract_cache_value result with
        | .error _ => .error (.panic "fail to extract cache value")
        | .ok (can_cache, _extracted_value) =>
          if can_cache then
            if env.redis.connOk = false then .error (.panic "redis connection failed")
            else .ok request_result
          else .ok request_result

/-- The upstream phase of `rpc_call`: skipped when nothing is uncached,
otherwise one batch call whose transport/parse failure is a 500, whose
non-array response is a 500, and whose elements are folded through
`processResponse`. -/
def upstreamPhase (env : Env) (chain_state : ChainState) (st : LoopState) :
    Except ErrorResponse (List (Nat × JVal)) :=
  if st.uncached_requests.isEmpty then .ok st.request_result
  else
    match env.upstream (buildRequestBody st.uncached_requests) with
    | .error e => .error (.internalServerError ("fail to make rpc request because: " ++ e))
    | .ok rpc_result =>
      match rpc_result.as_array with
      | none => .error (.internalServerError "invalid rpc response")
      | some responses =>
        responses.foldlM (processResponse env chain_state st.uncached_requests)
          st.request_result

/-- The reassembly walk of `rpc_call`: for every recorded id in order, fetch
its result (absence panics) and wrap it in a JSON-RPC response object. -/
def assembleResponse (request_result : List (Nat × JVal)) :
    List Nat → Except ErrorResponse (List JVal)
  | [] => .ok []
  | id :: rest =>
    match mapGet request_result id with
    | none => .error (.panic ("result for id " ++ toString id ++ " not found"))
    | some result =>
      match assembleResponse request_result rest with
      | .error e => .error e
      | .ok lst =>
        .ok (.obj [("jsonrpc", .str "2.0"), ("id", .num (id : Int)),
                   ("result", result)] :: lst)

/-- Normalisation of the HTTP body: an array is taken as-is, anything else
becomes a one-element batch. -/
def normalizeBody (body : JVal) : List JVal :=
  match body.as_array with
  | some requests => requests
  | none => [body]

/-- `rpc_call` up to (and including) building the ordered `response` vector:
chain lookup by uppercased name, request validation and cache triage,
the upstream phase, and reassembly in original order. -/
def rpc_call_results (data : AppState) (env : Env) (chain : String) (body : JVal) :
    Except ErrorResponse (List JVal) :=
  match mapGet data.chains (strToUpper chain) with
  | none => .error (.notFound "endpoint not supported")
  | some chain_state =>
    match (normalizeBody body).foldlM (processRequest env chain_state)
        ⟨[], [], []⟩ with
    | .error e => .error e
    | .ok st =>
      match upstreamPhase env chain_state st with
      | .error e => .error e
      | .ok request_result => assembleResponse request_result st.ordered_id

/-- Full `rpc_call`: a one-element response vector is unwrapped to a bare
object, otherwise the array is returned. -/
def rpc_call (data : AppState) (env : Env) (chain : String) (body : JVal) :
    Except ErrorResponse JVal :=
  match rpc_call_results data env chain body with
  | .error e => .error e
  | .ok response =>
    .ok (if response.length = 1 then response.headD .null else .arr response)

/-- The provisioning loop body of `main` for one endpoint: instantiate every
handler factory and index it by its `method_name` (later factories with the
same name overwrite earlier ones). -/
def provisionChain (rpc_url : String) (handler_factories : List RpcCacheHandler) :
    ChainState :=
  { rpc_url := rpc_url
    cache_entries := handler_factories.foldl
      (fun ce handler => mapInsert ce handler.method_name ⟨handler⟩) [] }

/-- The provisioning loop of `main`: one `ChainState` per configured
endpoint, inserted under the configured name. -/
def mkAppState (endpoints : List (String × String))
    (handler_factories : List RpcCacheHandler) : AppState :=
  ⟨endpoints.foldl
    (fun chains e => mapInsert chains e.1 (provisionChain e.2 handler_factories)) []⟩

/-- Modelled from the spec: the endpoint table produced by the `cli` module,
which is not among the sources. Spec section 4.1 states the registry lookup
is by uppercased chain name and section 6 that the chain path segment is
matched case-insensitively, so the parsed chain names are normalised to
uppercase before registration. -/
def cliEndpoints (raw : List (String × String)) : List (String × String) :=
  raw.map (fun e => (strToUpper e.1, e.2))

/-- The ids of a normalised request list, when every request carries a
`u64` id. -/
def requestIds : List JVal → Option (List Nat)
  | [] => some []
  | r :: rest =>
    match (r.index "id").as_u64 with
    | none => none
    | some id => (requestIds rest).map (fun ids => id :: ids)

/-- The validity condition enforced by the first loop of `rpc_call`:
a numeric (`u64`) id and a string method. -/
def validRequest (r : JVal) : Prop :=
  ((r.index "id").as_u64).isSome ∧ ((r.index "method").as_str).isSome

/-- Every id recorded in order is classified: it carries either a cached
result or a pending uncached request. -/
def coveredIds (st : LoopState) : Prop :=
  ∀ id ∈ st.ordered_id,
    (mapGet st.request_result id).isSome ∨ (mapGet st.uncached_requests id).isSome

/-! Concrete fixtures used to instantiate the theorems below on closed
inputs: one handler whose cache key is the constant `"k"`, chains with and
without a handler table entry, and environments covering the cache-hit,
cache-miss, corrupt-entry, store-down and various upstream-response
scenarios. -/

/-- A handler for method `"m"`, always deriving the cache key `"k"`. -/
def wHandler : RpcCacheHandler :=
  { method_name := "m"
    extract_cache_key := fun _ => .ok (some "k")
    extract_cache_value := fun _ => .ok (true, "v") }

/-- A chain with an empty handler table. -/
def wChainNoHandlers : ChainState := { rpc_url := "http://node", cache_entries := [] }

/-- A chain whose table maps `"m"` to `wHandler`. -/
def wChainM : ChainState :=
  { rpc_url := "http://node", cache_entries := [("m", ⟨wHandler⟩)] }

/-- App state with one chain `"ETH"` without handlers. -/
def wAppNo : AppState := ⟨[("ETH", wChainNoHandlers)]⟩

/-- App state with one chain `"ETH"` carrying the `"m"` handler. -/
def wAppM : AppState := ⟨[("ETH", wChainM)]⟩

/-- A reachable store holding nothing. -/
def wRedisEmpty : RedisEnv := { connOk := true, get := fun _ => .ok none }

/-- A reachable store answering every key with the string `"corrupt"`. -/
def wRedisCorrupt : RedisEnv := { connOk := true, get := fun _ => .ok (some "corrupt") }

/-- A store whose connection acquisition fails. -/
def wRedisDown : RedisEnv := { connOk := false, get := fun _ => .ok none }

/-- A reachable store answering every key with the string `"cv"`. -/
def wRedisHit : RedisEnv := { connOk := true, get := fun _ => .ok (some "cv") }

/-- Request `{id: 1, method: "foo"}` (no handler registered for `"foo"`). -/
def wReqFoo1 : JVal := .obj [("id", .num 1), ("method", .str "foo")]

/-- Request `{id: 2, method: "foo"}`. -/
def wReqFoo2 : JVal := .obj [("id", .num 2), ("method", .str "foo")]

/-- Request `{id: 1, method: "m"}` (handled method, no params field). -/
def wReqM1 : JVal := .obj [("id", .num 1), ("method", .str "m")]

/-- Environment: empty store, upstream answers id 1 with result `"up"`. -/
def wEnvUp1 : Env :=
  { redis := wRedisEmpty
    parse := fun _ => none
    upstream := fun _ => .ok (.arr [.obj [("id", .num 1), ("result", .str "up")]]) }

/-- Environment: every cached string is corrupt (fails to parse), upstream
answers id 1 with result `"up"`. -/
def wEnvCorrupt : Env :=
  { redis := wRedisCorrupt
    parse := fun _ => none
    upstream := fun _ => .ok (.arr [.obj [("id", .num 1), ("result", .str "up")]]) }

/-- Environment: cache hit deserializing to `"cached"` for every key, and
upstream answering id 2 with result `"up"`. -/
def wEnvHit : Env :=
  { redis := wRedisHit
    parse := fun _ => some (.str "cached")
    upstream := fun _ => .ok (.arr [.obj [("id", .num 2), ("result", .str "up")]]) }

/-- Environment: upstream reports a JSON-RPC error for id 1. -/
def wEnvErr : Env :=
  { redis := wRedisEmpty
    parse := fun _ => none
    upstream := fun _ =>
      .ok (.arr [.obj [("id", .num 1), ("error", .obj [("code", .num 1)])]]) }

/-- Environment: upstream answers with an empty batch array. -/
def wEnvEmptyArr : Env :=
  { redis := wRedisEmpty
    parse := fun _ => none
    upstream := fun _ => .ok (.arr []) }

/-- Environment: upstream answers with an element whose id 2 was never
requested. -/
def wEnvWrongId : Env :=
  { redis := wRedisEmpty
    parse := fun _ => none
    upstream := fun _ => .ok (.arr [.obj [("id", .num 2), ("result", .null)]]) }

/-- Environment: store down, upstream answers id 1. -/
def wEnvDown : Env :=
  { redis := wRedisDown
    parse := fun _ => none
    upstream := fun _ => .ok (.arr [.obj [("id", .num 1), ("result", .str "up")]]) }

/-- The phase-1 state produced by the single request `{id: 1, method: "foo"}`
on a chain with no handlers. -/
def wStFoo1 : LoopState := ⟨[], [(1, ("foo", JVal.null, none))], [1]⟩

/-! Helper lemmas about the association-list maps, the monadic folds and the
individual loop bodies. -/

theorem mapGet_nil {κ α : Type _} [DecidableEq κ] (k : κ) :
    mapGet ([] : List (κ × α)) k = none := rfl

theorem mapGet_cons {κ α : Type _} [DecidableEq κ] (e : κ × α) (m : List (κ × α)) (k : κ) :
    mapGet (e :: m) k = if e.1 = k then some e.2 else mapGet m k := by
  by_cases h : e.1 = k <;> simp [mapGet, List.find?, h]

theorem mapGet_mapInsert_self {κ α : Type _} [DecidableEq κ]
    (m : List (κ × α)) (k : κ) (v : α) : mapGet (mapInsert m k v) k = some v := by
  induction m with
  | nil => simp [mapInsert, mapGet_cons]
  | cons e rest ih =>
    by_cases h : e.1 = k
    · simp [mapInsert, h, mapGet_cons]
    · simp [mapInsert, h, mapGet_cons, ih]

theorem mapGet_mapInsert_ne {κ α : Type _} [DecidableEq κ]
    (m : List (κ × α)) {k k' : κ} (v : α) (h : k' ≠ k) :
    mapGet (mapInsert m k v) k' = mapGet m k' := by
  have hk : ¬(k = k') := fun h' => h h'.symm
  induction m with
  | nil => simp [mapInsert, mapGet_cons, mapGet_nil, hk]
  | cons e rest ih =>
    by_cases he : e.1 = k
    · simp [mapInsert, he, mapGet_cons, hk]
    · simp [mapInsert, he, mapGet_cons, ih]

theorem isSome_mapGet_mapInsert {κ α : Type _} [DecidableEq κ]
    (m : List (κ × α)) (k k' : κ) (v : α) (h : (mapGet m k').isSome) :
    (mapGet (mapInsert m k v) k').isSome := by
  by_cases hk : k' = k
  · subst hk; simp [mapGet_mapInsert_self]
  · rwa [mapGet_mapInsert_ne m v hk]

theorem except_bind_ok {ε α β : Type _} {x : Except ε α} {f : α → Except ε β} {b : β}
    (h : (x >>= f) = .ok b) : ∃ a, x = .ok a ∧ f a = .ok b := by
  cases x with
  | error e => simp [Bind.bind, Except.bind] at h
  | ok a => exact ⟨a, rfl, by simpa [Bind.bind, Except.bind] using h⟩

theorem processRequest_ok {env : Env} {cs : ChainState} {st st' : LoopState} {r : JVal}
    (h : processRequest env cs st r = .ok st') :
    ∃ id, (r.index "id").as_u64 = some id ∧
      st'.ordered_id = st.ordered_id ++ [id] ∧
      ((∃ v, st'.request_result = mapInsert st.request_result id v ∧
             st'.uncached_requests = st.uncached_requests) ∨
       (∃ e, st'.uncached_requests = mapInsert st.uncached_requests id e ∧
             st'.request_result = st.request_result)) := by
  unfold processRequest at h
  split at h
  · exact absurd h (by simp)
  case _ id hid =>
    split at h
    · exact absurd h (by simp)
    case _ method hm =>
      refine ⟨id, hid, ?_⟩
      dsimp only at h
      split at h
      · cases h
        simp
      · split at h
        · exact absurd h (by simp)
        · cases h; simp
        · cases h; simp
        · cases h; simp
        · cases h; simp

theorem processResponse_ok {env : Env} {cs : ChainState}
    {U : List (Nat × String × JVal × Option String)} {rr rr' : List (Nat × JVal)}
    {resp : JVal} (h : processResponse env cs U rr resp = .ok rr') :
    ∃ id, (resp.index "id").as_u64 = some id ∧ (mapGet U id).isSome ∧
      rr' = mapInsert rr id (resp.index "result") := by
  unfold processResponse at h
  split at h
  · exact absurd h (by simp)
  case _ id hid =>
    split at h
    · exact absurd h (by simp)
    case _ method params cache_key hU =>
      refine ⟨id, hid, by simp [hU], ?_⟩
      split at h
      · exact absurd h (by simp)
      · dsimp only at h
        repeat' split at h
        all_goals first
          | (injection h with h; exact h.symm)
          | (exact Except.noConfusion h)

theorem foldlM_processRequest_ordered {env : Env} {cs : ChainState} {l : List JVal}
    {st0 st : LoopState} (h : l.foldlM (processRequest env cs) st0 = .ok st) :
    ∃ ids, requestIds l = some ids ∧ st.ordered_id = st0.ordered_id ++ ids := by
  induction l generalizing st0 with
  | nil =>
    simp only [List.foldlM, pure, Except.pure, Except.ok.injEq] at h
    subst h
    exact ⟨[], rfl, by simp⟩
  | cons r rest ih =>
    rw [List.foldlM_cons] at h
    obtain ⟨st1, h1, h2⟩ := except_bind_ok h
    obtain ⟨id, hid, hord, _⟩ := processRequest_ok h1
    obtain ⟨ids, hids, hord2⟩ := ih h2
    exact ⟨id :: ids, by simp [requestIds, hid, hids], by simp [hord2, hord]⟩

theorem foldlM_processRequest_covered {env : Env} {cs : ChainState} {l : List JVal}
    {st0 st : LoopState} (h : l.foldlM (processRequest env cs) st0 = .ok st)
    (h0 : coveredIds st0) : coveredIds st := by
  induction l generalizing st0 with
  | nil =>
    simp only [List.foldlM, pure, Except.pure, Except.ok.injEq] at h
    subst h
    exact h0
  | cons r rest ih =>
    rw [List.foldlM_cons] at h
    obtain ⟨st1, h1, h2⟩ := except_bind_ok h
    refine ih h2 ?_
    obtain ⟨id, hid, hord, hupd⟩ := processRequest_ok h1
    intro j hj
    rw [hord] at hj
    rcases List.mem_append.mp hj with hj0 | hj1
    · rcases h0 j hj0 with hc | hc
      · left
        rcases hupd with ⟨v, hrr, _⟩ | ⟨e, _, hrr⟩
        · rw [hrr]; exact isSome_mapGet_mapInsert _ _ _ _ hc
        · rw [hrr]; exact hc
      · right
        rcases hupd with ⟨v, _, hun⟩ | ⟨e, hun, _⟩
        · rw [hun]; exact hc
        · rw [hun]; exact isSome_mapGet_mapInsert _ _ _ _ hc
    · have hji : j = id := by simpa using hj1
      subst hji
      rcases hupd with ⟨v, hrr, _⟩ | ⟨e, hun, _⟩
      · left; rw [hrr, mapGet_mapInsert_self]; rfl
      · right; rw [hun, mapGet_mapInsert_self]; rfl

theorem foldlM_processResponse_preserve {env : Env} {cs : ChainState}
    {U : List (Nat × String × JVal × Option String)} {l : List JVal}
    {rr0 rr : List (Nat × JVal)}
    (h : l.foldlM (processResponse env cs U) rr0 = .ok rr) :
    ∀ j, (mapGet rr0 j).isSome → (mapGet rr j).isSome := by
  induction l generalizing rr0 with
  | nil =>
    simp only [List.foldlM, pure, Except.pure, Except.ok.injEq] at h
    subst h
    exact fun j hj => hj
  | cons e rest ih =>
    rw [List.foldlM_cons] at h
    obtain ⟨rr1, h1, h2⟩ := except_bind_ok h
    obtain ⟨id, _, _, hins⟩ := processResponse_ok h1
    intro j hj
    exact ih h2 j (by rw [hins]; exact isSome_mapGet_mapInsert _ _ _ _ hj)

theorem foldlM_processResponse_covers {env : Env} {cs : ChainState}
    {U : List (Nat × String × JVal × Option String)} {l : List JVal}
    {rr0 rr : List (Nat × JVal)}
    (h : l.foldlM (processResponse env cs U) rr0 = .ok rr) :
    ∀ e ∈ l, ∀ id, (e.index "id").as_u64 = some id → (mapGet rr id).isSome := by
  induction l generalizing rr0 with
  | nil => intro e he; exact absurd he (by simp)
  | cons e0 rest ih =>
    rw [List.foldlM_cons] at h
    obtain ⟨rr1, h1, h2⟩ := except_bind_ok h
    intro e he id hid
    rcases List.mem_cons.mp he with he0 | herest
    · subst he0
      obtain ⟨id0, hid0, _, hins⟩ := processResponse_ok h1
      rw [hid] at hid0
      have hii : id = id0 := Option.some.inj hid0
      subst hii
      refine foldlM_processResponse_preserve h2 id ?_
      rw [hins, mapGet_mapInsert_self]
      rfl
    · exact ih h2 e herest id hid

theorem assembleResponse_ok_of_covered {rr : List (Nat × JVal)} {ordered : List Nat}
    (h : ∀ id ∈ ordered, (mapGet rr id).isSome) :
    ∃ lst, assembleResponse rr ordered = .ok lst := by
  induction ordered with
  | nil => exact ⟨[], rfl⟩
  | cons id rest ih =>
    have h0 := h id (by simp)
    obtain ⟨v, hv⟩ := Option.isSome_iff_exists.mp h0
    obtain ⟨lst, hl⟩ := ih (fun j hj => h j (by simp [hj]))
    refine ⟨JVal.obj [("jsonrpc", .str "2.0"), ("id", .num (id : Int)),
      ("result", v)] :: lst, ?_⟩
    simp [assembleResponse, hv, hl]

theorem assembleResponse_ids {rr : List (Nat × JVal)} {ordered : List Nat}
    {lst : List JVal} (h : assembleResponse rr ordered = .ok lst) :
    lst.map (fun r => r.index "id") = ordered.map (fun id => JVal.num (Int.ofNat id)) := by
  induction ordered generalizing lst with
  | nil =>
    simp only [assembleResponse, Except.ok.injEq] at h
    subst h
    rfl
  | cons id rest ih =>
    unfold assembleResponse at h
    split at h
    · exact Except.noConfusion h
    · split at h
      · exact Except.noConfusion h
      case _ lst' hrest =>
        injection h with h
        subst h
        rw [List.map_cons, List.map_cons, ih hrest]
        rfl

theorem assembleResponse_length {rr : List (Nat × JVal)} {ordered : List Nat}
    {lst : List JVal} (h : assembleResponse rr ordered = .ok lst) :
    lst.length = ordered.length := by
  have h2 := congrArg List.length (assembleResponse_ids h)
  rwa [List.length_map, List.length_map] at h2

theorem requestIds_length {l : List JVal} {ids : List Nat}
    (h : requestIds l = some ids) : ids.length = l.length := by
  induction l generalizing ids with
  | nil =>
    simp only [requestIds, Option.some.injEq] at h
    subst h
    rfl
  | cons r rest ih =>
    unfold requestIds at h
    split at h
    · exact Option.noConfusion h
    · cases hrest : requestIds rest with
      | none => rw [hrest] at h; exact Option.noConfusion h
      | some ids' =>
        rw [hrest] at h
        simp only [Option.map, Option.bind, Option.some.injEq] at h
        subst h
        simp [ih hrest]



/-- C1: for every batch whose call succeeds, the ordered response vector
lists the per-id result objects in exactly the original input order,
regardless of which requests were cache hits and which were forwarded. -/
theorem batch_response_preserves_input_order
    {data : AppState} {env : Env} {chain : String} {body : JVal}
    {response : List JVal} {ids : List Nat}
    (h : rpc_call_results data env chain body = .ok response)
    (hids : requestIds (normalizeBody body) = some ids) :
    response.map (fun r => r.index "id") = ids.map (fun id => JVal.num (Int.ofNat id)) := by
  unfold rpc_call_results at h
  split at h
  · exact Except.noConfusion h
  case _ cs hchain =>
    split at h
    · exact Except.noConfusion h
    case _ st hst =>
      split at h
      · exact Except.noConfusion h
      case _ rr hrr =>
        obtain ⟨ids', hids', hord⟩ := foldlM_processRequest_ordered hst
        rw [hids] at hids'
        have hii : ids = ids' := Option.some.inj hids'
        subst hii
        have hordeq : st.ordered_id = ids := by simpa using hord
        rw [assembleResponse_ids h, hordeq]

/-- Witness for C1: a two-request batch, the first a cache hit for method
`"m"`, the second forwarded upstream; the response ids come back as 1 then
2, matching the input order. -/
theorem batch_response_preserves_input_order_witness :
    List.map (fun r => JVal.index r "id")
        [JVal.obj [("jsonrpc", .str "2.0"), ("id", .num 1), ("result", .str "cached")],
         JVal.obj [("jsonrpc", .str "2.0"), ("id", .num 2), ("result", .str "up")]] =
      List.map (fun id => JVal.num (Int.ofNat id)) [1, 2] :=
  batch_response_preserves_input_order
    (show rpc_call_results wAppM wEnvHit "ETH" (.arr [wReqM1, wReqFoo2]) =
      .ok [JVal.obj [("jsonrpc", .str "2.0"), ("id", .num 1), ("result", .str "cached")],
           JVal.obj [("jsonrpc", .str "2.0"), ("id", .num 2), ("result", .str "up")]] from rfl)
    (show requestIds (normalizeBody (.arr [wReqM1, wReqFoo2])) = some [1, 2] from rfl)



/-- C4 counterexample: a one-element JSON array body produces a bare result
object, not a one-element array — the unwrap at the end of `rpc_call` is by
response count, not by input shape. -/
theorem singleton_array_body_unwrapped_cex :
    rpc_call wAppNo wEnvUp1 "ETH" (.arr [wReqFoo1]) =
      .ok (.obj [("jsonrpc", .str "2.0"), ("id", .num 1), ("result", .str "up")]) ∧
    ∀ elems, JVal.obj [("jsonrpc", .str "2.0"), ("id", .num 1), ("result", .str "up")] ≠
      JVal.arr elems :=
  ⟨rfl, fun _ h => JVal.noConfusion h⟩

/-- C4 amended: the response vector always has exactly the input cardinality,
but the success body is a bare object whenever that cardinality is 1 — also
when the input was a one-element array; only other cardinalities yield
arrays. -/
theorem response_cardinality_and_singleton_unwrap
    {data : AppState} {env : Env} {chain : String} {body : JVal}
    {response : List JVal}
    (h : rpc_call_results data env chain body = .ok response) :
    response.length = (normalizeBody body).length ∧
    rpc_call data env chain body =
      .ok (if (normalizeBody body).length = 1 then response.headD .null
           else .arr response) := by
  have hlen : response.length = (normalizeBody body).length := by
    unfold rpc_call_results at h
    split at h
    · exact Except.noConfusion h
    case _ cs hchain =>
      split at h
      · exact Except.noConfusion h
      case _ st hst =>
        split at h
        · exact Except.noConfusion h
        case _ rr hrr =>
          obtain ⟨ids, hids, hord⟩ := foldlM_processRequest_ordered hst
          have h1 := assembleResponse_length h
          have h2 := requestIds_length hids
          have h3 : st.ordered_id = ids := by simpa using hord
          rw [h1, h3, h2]
  refine ⟨hlen, ?_⟩
  unfold rpc_call
  rw [h]
  dsimp only
  rw [hlen]

/-- Witness for the amended C4: the singleton-array call of the
counterexample indeed satisfies the cardinality-and-unwrap description. -/
theorem response_cardinality_and_singleton_unwrap_witness :
    ([JVal.obj [("jsonrpc", .str "2.0"), ("id", .num 1), ("result", .str "up")]] :
        List JVal).length = (normalizeBody (.arr [wReqFoo1])).length ∧
    rpc_call wAppNo wEnvUp1 "ETH" (.arr [wReqFoo1]) =
      .ok (if (normalizeBody (.arr [wReqFoo1])).length = 1
           then ([JVal.obj [("jsonrpc", .str "2.0"), ("id", .num 1),
                  ("result", .str "up")]] : List JVal).headD .null
           else .arr [JVal.obj [("jsonrpc", .str "2.0"), ("id", .num 1),
                  ("result", .str "up")]]) :=
  response_cardinality_and_singleton_unwrap
    (show rpc_call_results wAppNo wEnvUp1 "ETH" (.arr [wReqFoo1]) =
      .ok [JVal.obj [("jsonrpc", .str "2.0"), ("id", .num 1), ("result", .str "up")]]
      from rfl)



/-- C3 counterexample: a corrupt cache entry (stored string that fails to
parse) does not fail the call — the request is degraded to an uncached
upstream forward and the call succeeds. -/
theorem corrupt_cache_entry_not_fatal_cex :
    rpc_call wAppM wEnvCorrupt "ETH" wReqM1 =
      .ok (.obj [("jsonrpc", .str "2.0"), ("id", .num 1), ("result", .str "up")]) ∧
    ∀ e : ErrorResponse, rpc_call wAppM wEnvCorrupt "ETH" wReqM1 ≠ .error e := by
  refine ⟨rfl, fun e h => ?_⟩
  rw [show rpc_call wAppM wEnvCorrupt "ETH" wReqM1 =
    .ok (.obj [("jsonrpc", .str "2.0"), ("id", .num 1), ("result", .str "up")])
    from rfl] at h
  exact Except.noConfusion h

/-- C3 amended: a cache hit whose stored value fails to deserialize is
treated like any other `read_cache` error: logged and degraded to an
uncached upstream forward with no cache key, exactly as a request with no
derivable key — not a call failure. -/
theorem corrupt_cache_entry_degrades_to_uncached
    {env : Env} {cs : ChainState} {st : LoopState} {r : JVal} {id : Nat}
    {method : String} {ce : CacheEntry} {k s : String}
    (hid : (r.index "id").as_u64 = some id)
    (hm : (r.index "method").as_str = some method)
    (hce : mapGet cs.cache_entries method = some ce)
    (hkey : ce.handler.extract_cache_key (r.index "params") = .ok (some k))
    (hconn : env.redis.connOk = true)
    (hget : env.redis.get k = .ok (some s))
    (hparse : env.parse s = none) :
    processRequest env cs st r =
      .ok { request_result := st.request_result,
            uncached_requests :=
              mapInsert st.uncached_requests id (method, r.index "params", none),
            ordered_id := st.ordered_id ++ [id] } := by
  have hrc : read_cache env ce.handler (r.index "params") =
      .err "fail to deserialize cache value" := by
    unfold read_cache
    rw [hkey]
    simp [hconn, hget, hparse]
  unfold processRequest
  rw [hid]
  dsimp only
  rw [hm]
  dsimp only
  rw [hce]
  dsimp only
  rw [hrc]

/-- Witness for the amended C3: the corrupt-store fixture degrades the
handled request `{id: 1, method: "m"}` to an uncached forward. -/
theorem corrupt_cache_entry_degrades_to_uncached_witness :
    processRequest wEnvCorrupt wChainM ⟨[], [], []⟩ wReqM1 =
      .ok { request_result := [],
            uncached_requests := [(1, ("m", JVal.null, none))],
            ordered_id := [1] } :=
  corrupt_cache_entry_degrades_to_uncached rfl rfl rfl rfl rfl rfl rfl



/-- C6 counterexample: when the store connection cannot be acquired, the
call crashes with a panic instead of degrading the request to an uncached
forward. -/
theorem redis_failure_crashes_call_cex :
    rpc_call wAppM wEnvDown "ETH" wReqM1 = .error (.panic "redis connection failed") ∧
    ∀ v : JVal, rpc_call wAppM wEnvDown "ETH" wReqM1 ≠ .ok v := by
  refine ⟨rfl, fun v h => ?_⟩
  rw [show rpc_call wAppM wEnvDown "ETH" wReqM1 =
    .error (.panic "redis connection failed") from rfl] at h
  exact Except.noConfusion h

/-- C6 amended: a failure of the store's `get` path (here: connection
acquisition) panics the call through the `unwrap`s in `read_cache`; only
key-extraction and deserialization failures degrade to an uncached
forward. -/
theorem redis_get_connection_failure_panics
    {env : Env} {cs : ChainState} {st : LoopState} {r : JVal} {id : Nat}
    {method : String} {ce : CacheEntry} {k : String}
    (hid : (r.index "id").as_u64 = some id)
    (hm : (r.index "method").as_str = some method)
    (hce : mapGet cs.cache_entries method = some ce)
    (hkey : ce.handler.extract_cache_key (r.index "params") = .ok (some k))
    (hconn : env.redis.connOk = false) :
    processRequest env cs st r = .error (.panic "redis connection failed") := by
  have hrc : read_cache env ce.handler (r.index "params") =
      .panic "redis connection failed" := by
    unfold read_cache
    rw [hkey]
    simp [hconn]
  unfold processRequest
  rw [hid]
  dsimp only
  rw [hm]
  dsimp only
  rw [hce]
  dsimp only
  rw [hrc]

/-- Witness for the amended C6: the store-down fixture panics the handled
request `{id: 1, method: "m"}`. -/
theorem redis_get_connection_failure_panics_witness :
    processRequest wEnvDown wChainM ⟨[], [], []⟩ wReqM1 =
      .error (.panic "redis connection failed") :=
  redis_get_connection_failure_panics rfl rfl rfl rfl rfl



theorem rpc_call_results_eq
    {data : AppState} {env : Env} {chain : String} {body : JVal}
    {cs : ChainState} {st : LoopState}
    (hchain : mapGet data.chains (strToUpper chain) = some cs)
    (hst : (normalizeBody body).foldlM (processRequest env cs) ⟨[], [], []⟩ = .ok st) :
    rpc_call_results data env chain body =
      match upstreamPhase env cs st with
      | .error e => .error e
      | .ok request_result => assembleResponse request_result st.ordered_id := by
  unfold rpc_call_results
  rw [hchain]
  dsimp only
  rw [hst]

theorem upstreamPhase_eq
    {env : Env} {cs : ChainState} {st : LoopState} {elems : List JVal}
    (hne : st.uncached_requests.isEmpty = false)
    (hup : env.upstream (buildRequestBody st.uncached_requests) = .ok (.arr elems)) :
    upstreamPhase env cs st =
      elems.foldlM (processResponse env cs st.uncached_requests) st.request_result := by
  unfold upstreamPhase
  rw [if_neg (by simp [hne])]
  rw [hup]
  dsimp only
  rfl

/-- C5 counterexample: an upstream element whose id is a valid integer never
requested makes the call panic (a crash), not answer with a 400
bad-request. -/
theorem unknown_upstream_id_panics_cex :
    rpc_call wAppNo wEnvWrongId "ETH" wReqFoo1 = .error (.panic "unknown response id") ∧
    ∀ msg, rpc_call wAppNo wEnvWrongId "ETH" wReqFoo1 ≠
      .error (.badRequest msg) := by
  refine ⟨rfl, fun msg h => ?_⟩
  rw [show rpc_call wAppNo wEnvWrongId "ETH" wReqFoo1 =
    .error (.panic "unknown response id") from rfl] at h
  injection h with h
  exact ErrorResponse.noConfusion h

/-- C5 amended: an upstream element carrying a valid `u64` id that is not in
the pending set hits the `.unwrap()` on the pending-map lookup and panics;
only an id that fails `as_u64` yields the 400 — the unknown-correlation
condition is fatal, not a client-facing 400. -/
theorem unknown_upstream_id_panics
    {data : AppState} {env : Env} {chain : String} {body : JVal}
    {cs : ChainState} {st : LoopState} {e : JVal} {rest : List JVal} {i : Nat}
    (hchain : mapGet data.chains (strToUpper chain) = some cs)
    (hst : (normalizeBody body).foldlM (processRequest env cs) ⟨[], [], []⟩ = .ok st)
    (hne : st.uncached_requests.isEmpty = false)
    (hup : env.upstream (buildRequestBody st.uncached_requests) = .ok (.arr (e :: rest)))
    (hid : (e.index "id").as_u64 = some i)
    (hmiss : mapGet st.uncached_requests i = none) :
    rpc_call data env chain body = .error (.panic "unknown response id") := by
  have hpr : processResponse env cs st.uncached_requests st.request_result e =
      .error (.panic "unknown response id") := by
    unfold processResponse
    rw [hid]
    dsimp only
    rw [hmiss]
  have hfold : (e :: rest).foldlM (processResponse env cs st.uncached_requests)
      st.request_result = .error (.panic "unknown response id") := by
    rw [List.foldlM_cons, hpr]
    rfl
  unfold rpc_call
  rw [rpc_call_results_eq hchain hst, upstreamPhase_eq hne hup, hfold]

/-- Witness for the amended C5: the wrong-id fixture (upstream answers id 2
for a pending set containing only id 1) panics. -/
theorem unknown_upstream_id_panics_witness :
    rpc_call wAppNo wEnvWrongId "ETH" wReqFoo1 = .error (.panic "unknown response id") :=
  unknown_upstream_id_panics
    (show mapGet wAppNo.chains (strToUpper "ETH") = some wChainNoHandlers from rfl)
    (show (normalizeBody wReqFoo1).foldlM (processRequest wEnvWrongId wChainNoHandlers)
      ⟨[], [], []⟩ = .ok wStFoo1 from rfl)
    rfl
    (show wEnvWrongId.upstream (buildRequestBody wStFoo1.uncached_requests) =
      .ok (.arr ([.obj [("id", .num 2), ("result", .null)]] : List JVal)) from rfl)
    rfl rfl



theorem processResponse_error_element
    {env : Env} {cs : ChainState}
    {U : List (Nat × String × JVal × Option String)} {rr0 : List (Nat × JVal)}
    {e : JVal}
    (hid : ∃ id, (e.index "id").as_u64 = some id ∧ (mapGet U id).isSome)
    (herr : (e.index "error").is_null = false) :
    processResponse env cs U rr0 e = .error (.internalServerError "remote rpc error") := by
  obtain ⟨id, h1, h2⟩ := hid
  obtain ⟨⟨m, p, ck⟩, hU⟩ := Option.isSome_iff_exists.mp h2
  unfold processResponse
  rw [h1]
  dsimp only
  rw [hU]
  dsimp only
  rw [if_pos herr]

theorem processResponse_succeeds
    {env : Env} {cs : ChainState}
    {U : List (Nat × String × JVal × Option String)} {rr0 : List (Nat × JVal)}
    {e : JVal}
    (hid : ∃ id, (e.index "id").as_u64 = some id ∧ (mapGet U id).isSome)
    (hcv : ∀ id method params ck, (e.index "id").as_u64 = some id →
        mapGet U id = some (method, params, some ck) →
        ∃ ce, mapGet cs.cache_entries method = some ce ∧
          ∃ bv, ce.handler.extract_cache_value (e.index "result") = .ok bv)
    (hconn : env.redis.connOk = true)
    (herr : (e.index "error").is_null = true) :
    ∃ rr', processResponse env cs U rr0 e = .ok rr' := by
  obtain ⟨id, h1, h2⟩ := hid
  obtain ⟨⟨m, p, ck⟩, hU⟩ := Option.isSome_iff_exists.mp h2
  unfold processResponse
  rw [h1]
  dsimp only
  rw [hU]
  dsimp only
  rw [if_neg (by simp [herr])]
  cases ck with
  | none => exact ⟨_, rfl⟩
  | some k =>
    obtain ⟨ce, hce, bv, hbv⟩ := hcv id m p k h1 hU
    dsimp only
    rw [hce]
    dsimp only
    rw [hbv]
    obtain ⟨b, v⟩ := bv
    cases b with
    | false => exact ⟨_, rfl⟩
    | true =>
      exact ⟨mapInsert rr0 id (e.index "result"), by simp [hconn]⟩

theorem foldlM_processResponse_error
    {env : Env} {cs : ChainState}
    {U : List (Nat × String × JVal × Option String)} {elems : List JVal}
    (hids : ∀ e ∈ elems, ∃ id, (e.index "id").as_u64 = some id ∧ (mapGet U id).isSome)
    (hcv : ∀ e ∈ elems, ∀ id method params ck, (e.index "id").as_u64 = some id →
        mapGet U id = some (method, params, some ck) →
        ∃ ce, mapGet cs.cache_entries method = some ce ∧
          ∃ bv, ce.handler.extract_cache_value (e.index "result") = .ok bv)
    (hconn : env.redis.connOk = true)
    (herr : ∃ e ∈ elems, (e.index "error").is_null = false) :
    ∀ rr0, elems.foldlM (processResponse env cs U) rr0 =
      .error (.internalServerError "remote rpc error") := by
  induction elems with
  | nil =>
    obtain ⟨e, he, _⟩ := herr
    exact absurd he (by simp)
  | cons e0 rest ih =>
    intro rr0
    by_cases h0 : (e0.index "error").is_null = false
    · rw [List.foldlM_cons, processResponse_error_element (hids e0 (by simp)) h0]
      rfl
    · have h0' : (e0.index "error").is_null = true := by
        cases hb : (e0.index "error").is_null
        · exact absurd hb h0
        · rfl
      obtain ⟨rr1, hrr1⟩ :=
        processResponse_succeeds (hids e0 (by simp)) (hcv e0 (by simp)) hconn h0'
      rw [List.foldlM_cons, hrr1]
      have herr' : ∃ e ∈ rest, (e.index "error").is_null = false := by
        obtain ⟨e, he, hee⟩ := herr
        rcases List.mem_cons.mp he with rfl | hrest
        · exact absurd hee h0
        · exact ⟨e, hrest, hee⟩
      exact ih (fun e he => hids e (by simp [he])) (fun e he => hcv e (by simp [he]))
        herr' rr1

/-- C2: if the upstream batch response is well-correlated (every element
carries a `u64` id in the pending set, successful elements admit cache-value
extraction, the store is reachable) and any element carries a non-null
`error` field, the entire call fails with the 500 "remote rpc error" — no
result object for any id, cache hits included, is returned. -/
theorem upstream_error_poisons_batch
    {data : AppState} {env : Env} {chain : String} {body : JVal}
    {cs : ChainState} {st : LoopState} {elems : List JVal}
    (hchain : mapGet data.chains (strToUpper chain) = some cs)
    (hst : (normalizeBody body).foldlM (processRequest env cs) ⟨[], [], []⟩ = .ok st)
    (hne : st.uncached_requests.isEmpty = false)
    (hup : env.upstream (buildRequestBody st.uncached_requests) = .ok (.arr elems))
    (hids : ∀ e ∈ elems, ∃ id, (e.index "id").as_u64 = some id ∧
        (mapGet st.uncached_requests id).isSome)
    (hcv : ∀ e ∈ elems, ∀ id method params ck, (e.index "id").as_u64 = some id →
        mapGet st.uncached_requests id = some (method, params, some ck) →
        ∃ ce, mapGet cs.cache_entries method = some ce ∧
          ∃ bv, ce.handler.extract_cache_value (e.index "result") = .ok bv)
    (hconn : env.redis.connOk = true)
    (herr : ∃ e ∈ elems, (e.index "error").is_null = false) :
    rpc_call data env chain body = .error (.internalServerError "remote rpc error") := by
  have hfold := foldlM_processResponse_error hids hcv hconn herr st.request_result
  unfold rpc_call
  rw [rpc_call_results_eq hchain hst, upstreamPhase_eq hne hup, hfold]

/-- Witness for C2: a single forwarded request whose upstream sub-response
carries a JSON-RPC error; the call answers with the 500 "remote rpc
error". -/
theorem upstream_error_poisons_batch_witness :
    rpc_call wAppNo wEnvErr "ETH" wReqFoo1 =
      .error (.internalServerError "remote rpc error") := by
  refine upstream_error_poisons_batch
    (show mapGet wAppNo.chains (strToUpper "ETH") = some wChainNoHandlers from rfl)
    (show (normalizeBody wReqFoo1).foldlM (processRequest wEnvErr wChainNoHandlers)
      ⟨[], [], []⟩ = .ok wStFoo1 from rfl)
    rfl
    (show wEnvErr.upstream (buildRequestBody wStFoo1.uncached_requests) =
      .ok (.arr ([.obj [("id", .num 1), ("error", .obj [("code", .num 1)])]] :
        List JVal)) from rfl)
    ?_ ?_ rfl ?_
  · intro e he
    have he' : e = JVal.obj [("id", .num 1), ("error", .obj [("code", .num 1)])] := by
      simpa using he
    subst he'
    exact ⟨1, rfl, rfl⟩
  · intro e he id m p ck h1 h2
    have he' : e = JVal.obj [("id", .num 1), ("error", .obj [("code", .num 1)])] := by
      simpa using he
    subst he'
    have h1' : (some 1 : Option Nat) = some id := h1
    obtain rfl : (1 : Nat) = id := Option.some.inj h1'
    have h2' : some ("foo", JVal.null, (none : Option String)) = some (m, p, some ck) := h2
    injection h2' with h3
    injection h3 with h4 h5
    injection h5 with h6 h7
    exact Option.noConfusion h7
  · exact ⟨JVal.obj [("id", .num 1), ("error", .obj [("code", .num 1)])], by simp, rfl⟩



theorem processRequest_invalid {env : Env} {cs : ChainState} {st : LoopState}
    {r : JVal} (hv : ¬ validRequest r) :
    ∃ msg, processRequest env cs st r = .error (.badRequest msg) := by
  unfold validRequest at hv
  rw [not_and_or] at hv
  cases hid : (r.index "id").as_u64 with
  | none => exact ⟨"id not found", by unfold processRequest; rw [hid]⟩
  | some id =>
    cases hm : (r.index "method").as_str with
    | none =>
      refine ⟨"method not found", ?_⟩
      unfold processRequest
      rw [hid]
      dsimp only
      rw [hm]
    | some m =>
      rcases hv with hv | hv
      · exact absurd (by rw [hid]; rfl) hv
      · exact absurd (by rw [hm]; rfl) hv

theorem read_cache_no_panic {env : Env} {handler : RpcCacheHandler} {params : JVal}
    {msg : String} (hconn : env.redis.connOk = true)
    (hget : ∀ k, ∃ v, env.redis.get k = .ok v) :
    read_cache env handler params ≠ .panic msg := by
  intro h
  unfold read_cache at h
  split at h
  · exact ReadCacheResult.noConfusion h
  · exact ReadCacheResult.noConfusion h
  case _ k hk =>
    rw [if_neg (by simp [hconn])] at h
    obtain ⟨v, hv⟩ := hget k
    rw [hv] at h
    cases v with
    | none => exact ReadCacheResult.noConfusion h
    | some s =>
      dsimp only at h
      split at h
      · exact ReadCacheResult.noConfusion h
      · exact ReadCacheResult.noConfusion h

theorem processRequest_ok_of_valid {env : Env} {cs : ChainState} {st : LoopState}
    {r : JVal} (hv : validRequest r) (hconn : env.redis.connOk = true)
    (hget : ∀ k, ∃ v, env.redis.get k = .ok v) :
    ∃ st', processRequest env cs st r = .ok st' := by
  obtain ⟨hid, hm⟩ := hv
  obtain ⟨id, hid⟩ := Option.isSome_iff_exists.mp hid
  obtain ⟨m, hm⟩ := Option.isSome_iff_exists.mp hm
  unfold processRequest
  rw [hid]
  dsimp only
  rw [hm]
  dsimp only
  cases hce : mapGet cs.cache_entries m with
  | none => exact ⟨_, rfl⟩
  | some ce =>
    dsimp only
    cases hrc : read_cache env ce.handler (r.index "params") with
    | panic pm => exact absurd hrc (read_cache_no_panic hconn hget)
    | err em => exact ⟨_, rfl⟩
    | ok status => cases status <;> exact ⟨_, rfl⟩

theorem foldlM_processRequest_badRequest {env : Env} {cs : ChainState} {l : List JVal}
    (hconn : env.redis.connOk = true)
    (hget : ∀ k, ∃ v, env.redis.get k = .ok v)
    (hviol : ∃ r ∈ l, ¬ validRequest r) :
    ∀ st0, ∃ msg, l.foldlM (processRequest env cs) st0 = .error (.badRequest msg) := by
  induction l with
  | nil =>
    obtain ⟨r, hr, _⟩ := hviol
    exact absurd hr (by simp)
  | cons r0 rest ih =>
    intro st0
    by_cases hv : validRequest r0
    · obtain ⟨st1, hst1⟩ := processRequest_ok_of_valid hv hconn hget
      have hviol' : ∃ r ∈ rest, ¬ validRequest r := by
        obtain ⟨r, hr, hnr⟩ := hviol
        rcases List.mem_cons.mp hr with rfl | h
        · exact absurd hv hnr
        · exact ⟨r, h, hnr⟩
      obtain ⟨msg, hmsg⟩ := ih hviol' st1
      refine ⟨msg, ?_⟩
      rw [List.foldlM_cons, hst1]
      exact hmsg
    · obtain ⟨msg, hmsg⟩ := processRequest_invalid hv
      refine ⟨msg, ?_⟩
      rw [List.foldlM_cons, hmsg]
      rfl

theorem processRequest_upstream_irrel (env : Env)
    (u : JVal → Except String JVal) (cs : ChainState) (st : LoopState) (r : JVal) :
    processRequest { redis := env.redis, parse := env.parse, upstream := u } cs st r =
      processRequest env cs st r := rfl

/-- C7: a batch containing a request without a `u64` id or a string method is
rejected with a 400 at the first violation, and the upstream node is never
consulted: the outcome is the same 400 whatever the upstream oracle
answers. -/
theorem invalid_request_rejected_before_upstream
    {data : AppState} {env : Env} {chain : String} {body : JVal} {cs : ChainState}
    (hchain : mapGet data.chains (strToUpper chain) = some cs)
    (hconn : env.redis.connOk = true)
    (hget : ∀ k, ∃ v, env.redis.get k = .ok v)
    (hviol : ∃ r ∈ normalizeBody body, ¬ validRequest r) :
    ∃ msg, ∀ u, rpc_call data
        { redis := env.redis, parse := env.parse, upstream := u } chain body =
      .error (.badRequest msg) := by
  obtain ⟨msg, hmsg⟩ := foldlM_processRequest_badRequest hconn hget hviol
    (⟨[], [], []⟩ : LoopState)
  refine ⟨msg, fun u => ?_⟩
  have hmsg' : (normalizeBody body).foldlM
      (processRequest { redis := env.redis, parse := env.parse, upstream := u } cs)
      ⟨[], [], []⟩ = .error (.badRequest msg) := by
    have hfun : processRequest { redis := env.redis, parse := env.parse, upstream := u } cs =
        processRequest env cs :=
      funext fun st => funext fun r => processRequest_upstream_irrel env u cs st r
    rw [hfun]
    exact hmsg
  unfold rpc_call rpc_call_results
  rw [hchain]
  dsimp only
  rw [hmsg']

/-- Witness for C7: a batch whose single request has a string id is rejected
with a 400 for every upstream oracle. -/
theorem invalid_request_rejected_before_upstream_witness :
    ∃ msg, ∀ u, rpc_call wAppNo
        { redis := wRedisEmpty, parse := fun _ => none, upstream := u } "ETH"
        (.arr [.obj [("id", .str "x"), ("method", .str "foo")]]) =
      .error (.badRequest msg) :=
  invalid_request_rejected_before_upstream
    (show mapGet wAppNo.chains (strToUpper "ETH") = some wChainNoHandlers from rfl)
    (show wEnvUp1.redis.connOk = true from rfl)
    (show ∀ k, ∃ v, wEnvUp1.redis.get k = Except.ok v from fun k => ⟨none, rfl⟩)
    (show ∃ r ∈ normalizeBody (JVal.arr [JVal.obj [("id", JVal.str "x"),
        ("method", JVal.str "foo")]]), ¬ validRequest r from
      ⟨JVal.obj [("id", JVal.str "x"), ("method", JVal.str "foo")],
        by simp [normalizeBody, JVal.as_array],
        by
          intro hv
          obtain ⟨v, hvv⟩ := Option.isSome_iff_exists.mp hv.1
          exact Option.noConfusion hvv⟩)



/-- C8 counterexample: a validated call whose upstream interaction completes
without any surfaced error (the upstream answers the well-formed batch with
an empty JSON array) still reaches the missing-id panic at assembly time. -/
theorem missing_upstream_result_panics_cex :
    rpc_call wAppNo wEnvEmptyArr "ETH" wReqFoo1 =
      .error (.panic ("result for id " ++ toString (1 : Nat) ++ " not found")) := rfl

/-- C8 amended: the missing-id panic is unreachable provided additionally
the upstream response carries an element for every pending id; under that
coverage the assembly walk finds every ordered id and the call succeeds. -/
theorem assembly_total_under_upstream_coverage
    {data : AppState} {env : Env} {chain : String} {body : JVal}
    {cs : ChainState} {st : LoopState} {elems : List JVal} {rr : List (Nat × JVal)}
    (hchain : mapGet data.chains (strToUpper chain) = some cs)
    (hst : (normalizeBody body).foldlM (processRequest env cs) ⟨[], [], []⟩ = .ok st)
    (hne : st.uncached_requests.isEmpty = false)
    (hup : env.upstream (buildRequestBody st.uncached_requests) = .ok (.arr elems))
    (hfold : elems.foldlM (processResponse env cs st.uncached_requests)
      st.request_result = .ok rr)
    (hcov : ∀ id, (mapGet st.uncached_requests id).isSome →
        ∃ e ∈ elems, (e.index "id").as_u64 = some id) :
    ∃ v, rpc_call data env chain body = .ok v := by
  have hcovered : ∀ id ∈ st.ordered_id, (mapGet rr id).isSome := by
    intro id hid
    have hcl := foldlM_processRequest_covered hst (by intro j hj; exact absurd hj (by simp))
    rcases hcl id hid with hhit | hpend
    · exact foldlM_processResponse_preserve hfold id hhit
    · obtain ⟨e, he, heid⟩ := hcov id hpend
      exact foldlM_processResponse_covers hfold e he id heid
  obtain ⟨lst, hlst⟩ := assembleResponse_ok_of_covered hcovered
  refine ⟨if lst.length = 1 then lst.headD .null else .arr lst, ?_⟩
  unfold rpc_call
  rw [rpc_call_results_eq hchain hst, upstreamPhase_eq hne hup, hfold]
  dsimp only
  rw [hlst]

/-- Witness for the amended C8: with an upstream answering the single
pending id, the call completes without reaching the panic. -/
theorem assembly_total_under_upstream_coverage_witness :
    ∃ v, rpc_call wAppNo wEnvUp1 "ETH" wReqFoo1 = .ok v := by
  refine assembly_total_under_upstream_coverage
    (show mapGet wAppNo.chains (strToUpper "ETH") = some wChainNoHandlers from rfl)
    (show (normalizeBody wReqFoo1).foldlM (processRequest wEnvUp1 wChainNoHandlers)
      ⟨[], [], []⟩ = .ok wStFoo1 from rfl)
    rfl
    (show wEnvUp1.upstream (buildRequestBody wStFoo1.uncached_requests) =
      .ok (.arr ([.obj [("id", .num 1), ("result", .str "up")]] : List JVal)) from rfl)
    (show ([(.obj [("id", .num 1), ("result", .str "up")] : JVal)]).foldlM
        (processResponse wEnvUp1 wChainNoHandlers wStFoo1.uncached_requests)
        wStFoo1.request_result = .ok [(1, JVal.str "up")] from rfl)
    ?_
  intro id h
  by_cases hid : (1 : Nat) = id
  · subst hid
    exact ⟨.obj [("id", .num 1), ("result", .str "up")], by simp, rfl⟩
  · rw [show mapGet wStFoo1.uncached_requests id =
      (if (1 : Nat) = id then some ("foo", JVal.null, (none : Option String)) else none)
      from mapGet_cons _ _ _] at h
    rw [if_neg hid] at h
    exact absurd h (by simp)



theorem mapGet_foldl_mapInsert_isSome {κ α β : Type _} [DecidableEq κ]
    (l : List (κ × β)) (f : κ × β → α) (m0 : List (κ × α)) (k : κ) :
    (mapGet (l.foldl (fun m e => mapInsert m e.1 (f e)) m0) k).isSome ↔
      ((∃ e ∈ l, e.1 = k) ∨ (mapGet m0 k).isSome) := by
  induction l generalizing m0 with
  | nil => simp
  | cons e rest ih =>
    rw [List.foldl_cons, ih]
    constructor
    · rintro (⟨e', he', hk⟩ | hm)
      · exact Or.inl ⟨e', by simp [he'], hk⟩
      · by_cases hek : e.1 = k
        · exact Or.inl ⟨e, by simp, hek⟩
        · right
          rwa [mapGet_mapInsert_ne _ _ (fun h => hek h.symm)] at hm
    · rintro (⟨e', he', hk⟩ | hm)
      · rcases List.mem_cons.mp he' with heq | h
        · subst heq
          right
          rw [hk, mapGet_mapInsert_self]
          rfl
        · exact Or.inl ⟨e', h, hk⟩
      · by_cases hek : e.1 = k
        · right
          rw [hek, mapGet_mapInsert_self]
          rfl
        · right
          rwa [mapGet_mapInsert_ne _ _ (fun h => hek h.symm)]

theorem processRequest_no_notFound {env : Env} {cs : ChainState} {st : LoopState}
    {r : JVal} {msg : String} :
    processRequest env cs st r ≠ .error (.notFound msg) := by
  intro h
  unfold processRequest at h
  dsimp only at h
  repeat' split at h
  all_goals first
    | (exact Except.noConfusion h)
    | (injection h with h; exact ErrorResponse.noConfusion h)

theorem processResponse_no_notFound {env : Env} {cs : ChainState}
    {U : List (Nat × String × JVal × Option String)} {rr : List (Nat × JVal)}
    {resp : JVal} {msg : String} :
    processResponse env cs U rr resp ≠ .error (.notFound msg) := by
  intro h
  unfold processResponse at h
  dsimp only at h
  repeat' split at h
  all_goals first
    | (exact Except.noConfusion h)
    | (injection h with h; exact ErrorResponse.noConfusion h)

theorem foldlM_no_notFound {σ α : Type _} {f : σ → α → Except ErrorResponse σ}
    (hf : ∀ s a msg, f s a ≠ .error (.notFound msg)) :
    ∀ (l : List α) (s0 : σ) (msg : String),
      l.foldlM f s0 ≠ .error (.notFound msg) := by
  intro l
  induction l with
  | nil => intro s0 msg h; exact Except.noConfusion h
  | cons a rest ih =>
    intro s0 msg h
    rw [List.foldlM_cons] at h
    cases hfa : f s0 a with
    | error e =>
      rw [hfa] at h
      have he : e = .notFound msg := by simpa [Bind.bind, Except.bind] using h
      exact hf s0 a msg (by rw [hfa, he])
    | ok s1 =>
      rw [hfa] at h
      exact ih s1 msg (by simpa [Bind.bind, Except.bind] using h)

theorem assembleResponse_no_notFound {rr : List (Nat × JVal)} {ordered : List Nat}
    {msg : String} : assembleResponse rr ordered ≠ .error (.notFound msg) := by
  induction ordered with
  | nil => intro h; exact Except.noConfusion h
  | cons id rest ih =>
    intro h
    unfold assembleResponse at h
    split at h
    · injection h with h
      exact ErrorResponse.noConfusion h
    · split at h
      case _ e he =>
        injection h with h
        subst h
        exact ih he
      · exact Except.noConfusion h

theorem upstreamPhase_no_notFound {env : Env} {cs : ChainState} {st : LoopState}
    {msg : String} : upstreamPhase env cs st ≠ .error (.notFound msg) := by
  intro h
  unfold upstreamPhase at h
  split at h
  · exact Except.noConfusion h
  · split at h
    · injection h with h
      exact ErrorResponse.noConfusion h
    · split at h
      · injection h with h
        exact ErrorResponse.noConfusion h
      · exact foldlM_no_notFound (fun rr resp m => processResponse_no_notFound) _ _ msg h

theorem rpc_call_results_no_notFound {data : AppState} {env : Env} {chain : String}
    {body : JVal} {cs : ChainState} {msg : String}
    (hchain : mapGet data.chains (strToUpper chain) = some cs) :
    rpc_call_results data env chain body ≠ .error (.notFound msg) := by
  intro h
  unfold rpc_call_results at h
  rw [hchain] at h
  dsimp only at h
  split at h
  case _ e he =>
    injection h with h
    subst h
    exact foldlM_no_notFound (fun s a m => processRequest_no_notFound) _ _ msg he
  · split at h
    case _ e he =>
      injection h with h
      subst h
      exact upstreamPhase_no_notFound he
    · exact assembleResponse_no_notFound h

theorem rpc_call_no_notFound {data : AppState} {env : Env} {chain : String}
    {body : JVal} {cs : ChainState} {msg : String}
    (hchain : mapGet data.chains (strToUpper chain) = some cs) :
    rpc_call data env chain body ≠ .error (.notFound msg) := by
  intro h
  unfold rpc_call at h
  split at h
  case _ e he =>
    injection h with h
    subst h
    exact rpc_call_results_no_notFound hchain he
  · exact Except.noConfusion h

/-- C9: over the registry built by `main` from the spec-modelled,
uppercase-normalised CLI endpoint table, a call answers the 404
"endpoint not supported" exactly when no configured chain name matches the
requested path segment case-insensitively: unknown chains get the 404
(never a crash), and a registered chain is found under any casing. -/
theorem unknown_chain_not_found_iff (raw : List (String × String))
    (fs : List RpcCacheHandler) (env : Env) (chain : String) (body : JVal) :
    rpc_call (mkAppState (cliEndpoints raw) fs) env chain body =
        .error (.notFound "endpoint not supported") ↔
      ∀ e ∈ raw, strToUpper e.1 ≠ strToUpper chain := by
  constructor
  · intro h e he hk
    have hsome : (mapGet (mkAppState (cliEndpoints raw) fs).chains
        (strToUpper chain)).isSome := by
      unfold mkAppState cliEndpoints
      rw [mapGet_foldl_mapInsert_isSome]
      exact Or.inl ⟨(strToUpper e.1, e.2), List.mem_map.mpr ⟨e, he, rfl⟩, hk⟩
    obtain ⟨cs, hcs⟩ := Option.isSome_iff_exists.mp hsome
    exact rpc_call_no_notFound hcs h
  · intro hall
    have hnone : mapGet (mkAppState (cliEndpoints raw) fs).chains
        (strToUpper chain) = none := by
      rw [← Option.not_isSome_iff_eq_none]
      unfold mkAppState cliEndpoints
      rw [mapGet_foldl_mapInsert_isSome]
      rintro (⟨e', he', hk⟩ | hm)
      · obtain ⟨e, he, rfl⟩ := List.mem_map.mp he'
        exact hall e he hk
      · exact absurd hm (by simp [mapGet_nil])
    unfold rpc_call rpc_call_results
    rw [hnone]



theorem JVal.index_obj_cons (p : String × JVal) (fields : List (String × JVal))
    (k : String) :
    (JVal.obj (p :: fields)).index k =
      if p.1 = k then p.2 else (JVal.obj fields).index k := by
  by_cases h : p.1 = k
  · have hb : (p.1 == k) = true := beq_iff_eq.mpr h
    simp [JVal.index, List.find?, hb, h]
  · have hb : (p.1 == k) = false := beq_eq_false_iff_ne.mpr h
    simp [JVal.index, List.find?, hb, h]

theorem JVal.index_obj_of_forall_ne {fields : List (String × JVal)} {k : String}
    (h : ∀ p ∈ fields, p.1 ≠ k) : (JVal.obj fields).index k = .null := by
  induction fields with
  | nil => rfl
  | cons p rest ih =>
    rw [JVal.index_obj_cons, if_neg (h p (by simp))]
    exact ih (fun q hq => h q (by simp [hq]))

theorem processRequest_congr_indices {env : Env} {cs : ChainState} {st : LoopState}
    {r1 r2 : JVal}
    (h1 : r1.index "id" = r2.index "id")
    (h2 : r1.index "method" = r2.index "method")
    (h3 : r1.index "params" = r2.index "params") :
    processRequest env cs st r1 = processRequest env cs st r2 := by
  unfold processRequest
  rw [h1, h2, h3]

theorem processRequest_no_badRequest_of_valid {env : Env} {cs : ChainState}
    {st : LoopState} {r : JVal} {id : Nat} {method : String}
    (hid : (r.index "id").as_u64 = some id)
    (hm : (r.index "method").as_str = some method) :
    ∀ msg, processRequest env cs st r ≠ .error (.badRequest msg) := by
  intro msg h
  unfold processRequest at h
  rw [hid] at h
  dsimp only at h
  rw [hm] at h
  dsimp only at h
  repeat' split at h
  all_goals first
    | (exact Except.noConfusion h)
    | (injection h with h; exact ErrorResponse.noConfusion h)

/-- C10: a request object with no `params` field is not rejected — indexing
yields JSON null, so the request behaves exactly like one carrying
`"params": null`: validation passes (never a 400 for it), the handler
table / cache pipeline sees null params, a no-handler method is queued
uncached with null params, and the built upstream batch entry carries
`"params": null`. -/
theorem absent_params_treated_as_null
    {fields : List (String × JVal)} {env : Env} {cs : ChainState} {st : LoopState}
    {id : Nat} {method : String}
    (hnp : ∀ p ∈ fields, p.1 ≠ "params")
    (hid : ((JVal.obj fields).index "id").as_u64 = some id)
    (hm : ((JVal.obj fields).index "method").as_str = some method) :
    (JVal.obj fields).index "params" = .null ∧
    processRequest env cs st (.obj fields) =
      processRequest env cs st (.obj (("params", JVal.null) :: fields)) ∧
    (∀ msg, processRequest env cs st (.obj fields) ≠ .error (.badRequest msg)) ∧
    (mapGet cs.cache_entries method = none →
      processRequest env cs st (.obj fields) =
        .ok { request_result := st.request_result,
              uncached_requests :=
                mapInsert st.uncached_requests id (method, JVal.null, none),
              ordered_id := st.ordered_id ++ [id] }) ∧
    buildRequestBody [(id, method, JVal.null, (none : Option String))] =
      .arr [.obj [("jsonrpc", .str "2.0"), ("id", .num (Int.ofNat id)),
                  ("method", .str method), ("params", .null)]] := by
  have hp : (JVal.obj fields).index "params" = .null := JVal.index_obj_of_forall_ne hnp
  refine ⟨hp, ?_, processRequest_no_badRequest_of_valid hid hm, ?_, rfl⟩
  · refine processRequest_congr_indices ?_ ?_ ?_
    · rw [JVal.index_obj_cons, if_neg (by simp)]
    · rw [JVal.index_obj_cons, if_neg (by simp)]
    · rw [JVal.index_obj_cons, if_pos rfl, hp]
  · intro hnh
    unfold processRequest
    rw [hid]
    dsimp only
    rw [hm]
    dsimp only
    rw [hnh, hp]

/-- Witness for C10: the paramsless request `{id: 1, method: "m"}` on a chain
without handlers satisfies all five conclusions. -/
theorem absent_params_treated_as_null_witness :
    (JVal.obj [("id", JVal.num 1), ("method", JVal.str "m")]).index "params" = .null ∧
    processRequest wEnvUp1 wChainNoHandlers ⟨[], [], []⟩
        (.obj [("id", JVal.num 1), ("method", JVal.str "m")]) =
      processRequest wEnvUp1 wChainNoHandlers ⟨[], [], []⟩
        (.obj [("params", JVal.null), ("id", JVal.num 1), ("method", JVal.str "m")]) ∧
    (∀ msg, processRequest wEnvUp1 wChainNoHandlers ⟨[], [], []⟩
        (.obj [("id", JVal.num 1), ("method", JVal.str "m")]) ≠
      .error (.badRequest msg)) ∧
    (mapGet wChainNoHandlers.cache_entries "m" = none →
      processRequest wEnvUp1 wChainNoHandlers ⟨[], [], []⟩
          (.obj [("id", JVal.num 1), ("method", JVal.str "m")]) =
        .ok { request_result := [],
              uncached_requests := mapInsert [] 1 ("m", JVal.null, none),
              ordered_id := [] ++ [1] }) ∧
    buildRequestBody [(1, "m", JVal.null, (none : Option String))] =
      .arr [.obj [("jsonrpc", .str "2.0"), ("id", .num (Int.ofNat 1)),
                  ("method", .str "m"), ("params", .null)]] :=
  absent_params_treated_as_null
    (by
      intro p hp
      rcases List.mem_cons.mp hp with rfl | hp2
      · simp
      · rcases List.mem_cons.mp hp2 with rfl | hp3
        · simp
        · exact absurd hp3 (by simp))
    rfl rfl

end CachedEthRpc
